import Mathlib

/-!
Verification of `cryptofeed/standards.py`: the translation registry that
normalizes trading pairs, channel names, trading options and timestamps
across exchanges.  Python dicts are embedded as association lists with
Python's dict semantics (insertion order preserved, assignment replaces in
place, lookup finds the entry of a present key); exceptions are embedded
with `Except`; numbers are embedded as `ℚ`.
-/

set_option maxHeartbeats 1000000

namespace Cryptofeed

/-! ### Constants

Modelled from the spec: the string constants live in `cryptofeed/defines.py`,
which is not part of the sources under verification; the spec describes them
as a fixed, closed set of exchange identifiers, standardized channel names,
standardized order-option names and a distinguished `UNSUPPORTED` sentinel,
all pairwise distinct.  Exchange identifiers are their conventional
upper-case names (the spec's examples use `"BINANCE"`, `"COINBASE"`,
`"KRAKEN"`, `"GEMINI"` verbatim); option names follow the spec's examples
(`"limit"`, `"market"`). -/

def BINANCE : String := "BINANCE"
def BINANCE_FUTURES : String := "BINANCE_FUTURES"
def BINANCE_DELIVERY : String := "BINANCE_DELIVERY"
def BINANCE_US : String := "BINANCE_US"
def BITCOINCOM : String := "BITCOINCOM"
def BITFINEX : String := "BITFINEX"
def BITMAX : String := "BITMAX"
def BITMEX : String := "BITMEX"
def BITSTAMP : String := "BITSTAMP"
def BITTREX : String := "BITTREX"
def BLOCKCHAIN : String := "BLOCKCHAIN"
def BYBIT : String := "BYBIT"
def COINBASE : String := "COINBASE"
def COINBENE : String := "COINBENE"
def DERIBIT : String := "DERIBIT"
def EXX : String := "EXX"
def FTX : String := "FTX"
def FTX_US : String := "FTX_US"
def GATEIO : String := "GATEIO"
def GEMINI : String := "GEMINI"
def HITBTC : String := "HITBTC"
def HUOBI : String := "HUOBI"
def HUOBI_DM : String := "HUOBI_DM"
def HUOBI_SWAP : String := "HUOBI_SWAP"
def KRAKEN : String := "KRAKEN"
def KRAKEN_FUTURES : String := "KRAKEN_FUTURES"
def OKCOIN : String := "OKCOIN"
def OKEX : String := "OKEX"
def POLONIEX : String := "POLONIEX"
def PROBIT : String := "PROBIT"
def UPBIT : String := "UPBIT"

def L2_BOOK : String := "l2_book"
def L3_BOOK : String := "l3_book"
def TRADES : String := "trades"
def TICKER : String := "ticker"
def VOLUME : String := "volume"
def FUNDING : String := "funding"
def OPEN_INTEREST : String := "open_interest"
def LIQUIDATIONS : String := "liquidations"
def FUTURES_INDEX : String := "futures_index"

def LIMIT : String := "limit"
def MARKET : String := "market"
def FILL_OR_KILL : String := "fill_or_kill"
def IMMEDIATE_OR_CANCEL : String := "immediate_or_cancel"
def MAKER_OR_CANCEL : String := "maker_or_cancel"

/-- Modelled from the spec: the distinguished sentinel value, distinct from
every native channel/option value appearing in the static tables. -/
def UNSUPPORTED : String := "UNSUPPORTED"

/-! ### Python values and exceptions -/

/-- A scalar Python value appearing in the static tables: a string or an
integer (Poloniex uses integer channel codes). -/
inductive PyLeaf where
  | str : String → PyLeaf
  | int : Int → PyLeaf
deriving DecidableEq, Repr

/-- A Python value appearing as an entry of the channel/option tables: a
scalar, or a small dict fragment (Coinbase trading options). -/
inductive PyVal where
  | leaf : PyLeaf → PyVal
  | dict : List (String × PyLeaf) → PyVal
deriving DecidableEq, Repr

/-- Shorthand for a string table value. -/
def vs (s : String) : PyVal := .leaf (.str s)

/-- Shorthand for an integer table value. -/
def vi (n : Int) : PyVal := .leaf (.int n)

/-- The exceptions raised by `standards.py`: the three error kinds of the
error taxonomy, plus Python's `IndexError` (reachable in
`pair_exchange_to_std` via `pair[0]` on an empty string). -/
inductive CFError where
  | UnsupportedTradingPair
  | UnsupportedDataFeed
  | UnsupportedTradingOption
  | IndexError
deriving DecidableEq, Repr

instance {ε α : Type} [DecidableEq ε] [DecidableEq α] : DecidableEq (Except ε α) := by
  intro a b
  cases a <;> cases b
  case error.error e1 e2 =>
    exact match decEq e1 e2 with
    | isTrue h => isTrue (by rw [h])
    | isFalse h => isFalse (by intro hc; cases hc; exact h rfl)
  case ok.ok v1 v2 =>
    exact match decEq v1 v2 with
    | isTrue h => isTrue (by rw [h])
    | isFalse h => isFalse (by intro hc; cases hc; exact h rfl)
  case error.ok e v => exact isFalse (by intro hc; cases hc)
  case ok.error v e => exact isFalse (by intro hc; cases hc)

/-! ### Python dicts as association lists -/

/-- `d[k]` / `k in d`: the value of key `k`, or `none` when absent. -/
def lookupA {β : Type} (k : String) : List (String × β) → Option β
  | [] => none
  | p :: rest => if p.1 = k then some p.2 else lookupA k rest

/-- `d[k] = v`: Python dict assignment.  A present key keeps its position
and gets the new value; an absent key is appended at the end (insertion
order). -/
def insertA {β : Type} (k : String) (v : β) (l : List (String × β)) : List (String × β) :=
  if (lookupA k l).isSome then l.map (fun p => if p.1 = k then (k, v) else p)
  else l ++ [(k, v)]

/-! ### The symbol registry -/

/-- The two module-level dicts of `standards.py`:
`_std_trading_pairs : standard -> (exchange -> native)` and
`_exchange_to_std : native -> standard`. -/
structure Registry where
  std_trading_pairs : List (String × List (String × String))
  exchange_to_std : List (String × String)
deriving DecidableEq, Repr

/-- The initial state: both module-level dicts empty. -/
def emptyRegistry : Registry := ⟨[], []⟩

/-- The exchanges exempt from the registry (they validate trading pairs
dynamically themselves). -/
def exemptExchanges : List String := [BITMEX, DERIBIT, KRAKEN_FUTURES]

/-- The update of `_exchange_to_std` for one provider pair
`(std, exch)`: `_exchange_to_std[exch] = std`. -/
def bwdStep (b : List (String × String)) (p : String × String) : List (String × String) :=
  insertA p.2 p.1 b

/-- The update of `_std_trading_pairs` for one provider pair `(std, exch)`
on exchange `e`: `_std_trading_pairs[std][exchange] = exch` when `std` is
already a key, else `_std_trading_pairs[std] = {exchange: exch}`. -/
def fwdStep (e : String) (f : List (String × List (String × String)))
    (p : String × String) : List (String × List (String × String)) :=
  match lookupA p.1 f with
  | some sub => insertA p.1 (insertA e p.2 sub) f
  | none => f ++ [(p.1, [(e, p.2)])]

/-- The body of the loop of `load_exchange_pair_mapping` for one provider
pair: both dicts updated. -/
def warmStep (e : String) (r : Registry) (p : String × String) : Registry :=
  { std_trading_pairs := fwdStep e r.std_trading_pairs p,
    exchange_to_std := bwdStep r.exchange_to_std p }

/-- `load_exchange_pair_mapping(exchange)`.  The Pair Provider
(`gen_pairs`, external to the sources under verification) is passed in as
the association list `mapping` it returned (a Python dict: keys are
distinct standard symbols, iterated in insertion order). -/
def load_exchange_pair_mapping (exchange : String) (mapping : List (String × String))
    (r : Registry) : Registry :=
  if exchange ∈ exemptExchanges then r
  else mapping.foldl (warmStep exchange) r

/-- `pair_std_to_exchange(pair, exchange)`. -/
def pair_std_to_exchange (r : Registry) (pair exchange : String) : Except CFError String :=
  if exchange ∈ exemptExchanges then .ok pair
  else
    match lookupA pair r.std_trading_pairs with
    | some sub =>
      match lookupA exchange sub with
      | some v => .ok v
      | none => .error .UnsupportedTradingPair
    | none =>
      if exchange = BITFINEX ∧ ¬ '-' ∈ pair.toList then .ok ("f" ++ pair)
      else .error .UnsupportedTradingPair

/-- `pair_exchange_to_std(pair)`.  `pair[0]` raises `IndexError` on the
empty string; `pair[0] == 'f'` is `pair.take 1 = "f"`; `pair[1:]` is
`pair.drop 1`. -/
def pair_exchange_to_std (r : Registry) (pair : String) : Except CFError (Option String) :=
  match lookupA pair r.exchange_to_std with
  | some std => .ok (some std)
  | none =>
    if pair = "" then .error .IndexError
    else if pair.take 1 = "f" then .ok (some (pair.drop 1))
    else .ok none

/-! ### Timestamp normalization -/

/-- The exchanges whose timestamps go through `pd.Timestamp(ts).timestamp()`. -/
def pd_timestamp_class : List String :=
  [BITMEX, COINBASE, HITBTC, OKCOIN, OKEX, FTX, FTX_US, BITCOINCOM, BLOCKCHAIN, PROBIT]

/-- The exchanges whose timestamps are epoch milliseconds. -/
def ms_timestamp_class : List String :=
  [HUOBI, HUOBI_DM, HUOBI_SWAP, BITFINEX, BYBIT, COINBENE, DERIBIT, BINANCE, BINANCE_US,
   BINANCE_FUTURES, BINANCE_DELIVERY, GEMINI, BITTREX, BITMAX, KRAKEN_FUTURES, UPBIT]

/-- The exchanges whose timestamps are epoch microseconds. -/
def us_timestamp_class : List String := [BITSTAMP]

/-- `timestamp_normalize(exchange, ts)`.  The generic parser
`pd.Timestamp(.).timestamp()` (the pandas library, external to the sources
under verification) is passed in as the function `parse`; numbers are
embedded as `ℚ`. -/
def timestamp_normalize (parse : ℚ → ℚ) (exchange : String) (ts : ℚ) : ℚ :=
  if exchange ∈ pd_timestamp_class then parse ts
  else if exchange ∈ ms_timestamp_class then ts / 1000
  else if exchange ∈ us_timestamp_class then ts / 1000000
  else ts

/-! ### The static channel table -/

/-- `_feed_to_exchange_map`: standardized channel → (exchange → native
channel value). -/
def feed_to_exchange_map : List (String × List (String × PyVal)) :=
  [(L2_BOOK,
    [(BITFINEX, vs "book-P0-F0-100"),
     (POLONIEX, vs L2_BOOK),
     (HITBTC, vs "subscribeOrderbook"),
     (COINBASE, vs "level2"),
     (BITMEX, vs "orderBookL2"),
     (BITSTAMP, vs "diff_order_book"),
     (KRAKEN, vs "book"),
     (KRAKEN_FUTURES, vs "book"),
     (BINANCE, vs "depth@100ms"),
     (BINANCE_US, vs "depth@100ms"),
     (BINANCE_FUTURES, vs "depth@100ms"),
     (BINANCE_DELIVERY, vs "depth@100ms"),
     (BLOCKCHAIN, vs "l2"),
     (EXX, vs "ENTRUST_ADD"),
     (HUOBI, vs "depth.step0"),
     (HUOBI_DM, vs "depth.step0"),
     (HUOBI_SWAP, vs "depth.step0"),
     (OKCOIN, vs "spot/depth_l2_tbt"),
     (OKEX, vs "{}/depth_l2_tbt"),
     (COINBENE, vs L2_BOOK),
     (DERIBIT, vs "book"),
     (BYBIT, vs "orderBookL2_25"),
     (FTX, vs "orderbook"),
     (FTX_US, vs "orderbook"),
     (GEMINI, vs L2_BOOK),
     (BITTREX, vs "SubscribeToExchangeDeltas"),
     (BITCOINCOM, vs "subscribeOrderbook"),
     (BITMAX, vs L2_BOOK),
     (UPBIT, vs L2_BOOK),
     ( GATEIO, vs "depth.subscribe"),
     (PROBIT, vs "order_books")]),
   (L3_BOOK,
    [(BITFINEX, vs "book-R0-F0-100"),
     (BITSTAMP, vs "detail_order_book"),
     (HITBTC, vs UNSUPPORTED),
     (COINBASE, vs "full"),
     (BITMEX, vs UNSUPPORTED),
     (POLONIEX, vs UNSUPPORTED),
     (KRAKEN, vs UNSUPPORTED),
     (KRAKEN_FUTURES, vs UNSUPPORTED),
     (BINANCE, vs UNSUPPORTED),
     (BINANCE_US, vs UNSUPPORTED),
     (BINANCE_FUTURES, vs UNSUPPORTED),
     (BINANCE_DELIVERY, vs UNSUPPORTED),
     (BLOCKCHAIN, vs "l3"),
     (EXX, vs UNSUPPORTED),
     (HUOBI, vs UNSUPPORTED),
     (HUOBI_DM, vs UNSUPPORTED),
     (OKCOIN, vs UNSUPPORTED),
     (OKEX, vs UNSUPPORTED),
     (BYBIT, vs UNSUPPORTED),
     (FTX, vs UNSUPPORTED),
     (FTX_US, vs UNSUPPORTED),
     (GEMINI, vs UNSUPPORTED),
     (BITCOINCOM, vs UNSUPPORTED),
     (BITMAX, vs UNSUPPORTED),
     (UPBIT, vs UNSUPPORTED),
     (PROBIT, vs UNSUPPORTED)]),
   (TRADES,
    [(POLONIEX, vs TRADES),
     (HITBTC, vs "subscribeTrades"),
     (BITSTAMP, vs "live_trades"),
     (BITFINEX, vs "trades"),
     (COINBASE, vs "matches"),
     (BITMEX, vs "trade"),
     (KRAKEN, vs "trade"),
     (KRAKEN_FUTURES, vs "trade"),
     (BINANCE, vs "aggTrade"),
     (BINANCE_US, vs "aggTrade"),
     (BINANCE_FUTURES, vs "aggTrade"),
     (BINANCE_DELIVERY, vs "aggTrade"),
     (BLOCKCHAIN, vs "trades"),
     (EXX, vs "TRADE"),
     (HUOBI, vs "trade.detail"),
     (HUOBI_DM, vs "trade.detail"),
     (HUOBI_SWAP, vs "trade.detail"),
     (OKCOIN, vs "spot/trade"),
     (OKEX, vs "{}/trade"),
     (COINBENE, vs TRADES),
     (DERIBIT, vs "trades"),
     (BYBIT, vs "trade"),
     (FTX, vs "trades"),
     (FTX_US, vs "trades"),
     (GEMINI, vs TRADES),
     (BITTREX, vs TRADES),
     (BITCOINCOM, vs "subscribeTrades"),
     (BITMAX, vs TRADES),
     (UPBIT, vs TRADES),
     ( GATEIO, vs "trades.subscribe"),
     (PROBIT, vs "recent_trades")]),
   (TICKER,
    [(POLONIEX, vi 1002),
     (HITBTC, vs "subscribeTicker"),
     (BITFINEX, vs "ticker"),
     (BITSTAMP, vs UNSUPPORTED),
     (COINBASE, vs "ticker"),
     (BITMEX, vs "quote"),
     (KRAKEN, vs TICKER),
     (KRAKEN_FUTURES, vs "ticker_lite"),
     (BINANCE, vs "ticker"),
     (BINANCE_US, vs "ticker"),
     (BINANCE_FUTURES, vs "ticker"),
     (BINANCE_DELIVERY, vs "ticker"),
     (BLOCKCHAIN, vs UNSUPPORTED),
     (HUOBI, vs UNSUPPORTED),
     (HUOBI_DM, vs UNSUPPORTED),
     (OKCOIN, vs "{}/ticker"),
     (OKEX, vs "{}/ticker"),
     (COINBENE, vs TICKER),
     (DERIBIT, vs "ticker"),
     (BYBIT, vs UNSUPPORTED),
     (FTX, vs "ticker"),
     (FTX_US, vs "ticker"),
     (GEMINI, vs UNSUPPORTED),
     (BITTREX, vs "SubscribeToSummaryDeltas"),
     (BITCOINCOM, vs "subscribeTicker"),
     (BITMAX, vs UNSUPPORTED),
     (UPBIT, vs UNSUPPORTED),
     ( GATEIO, vs UNSUPPORTED),
     (PROBIT, vs UNSUPPORTED)]),
   (VOLUME,
    [(POLONIEX, vi 1003)]),
   (FUNDING,
    [(BITMEX, vs "funding"),
     (BITFINEX, vs "trades"),
     (BINANCE_FUTURES, vs "markPrice"),
     (BINANCE_DELIVERY, vs "markPrice"),
     (KRAKEN_FUTURES, vs "ticker"),
     (DERIBIT, vs "ticker"),
     (OKEX, vs "{}/funding_rate"),
     (FTX, vs "funding"),
     (HUOBI_SWAP, vs "funding")]),
   (OPEN_INTEREST,
    [(OKEX, vs "{}/ticker"),
     (BITMEX, vs "instrument"),
     (KRAKEN_FUTURES, vs "ticker"),
     (DERIBIT, vs "ticker"),
     (FTX, vs "open_interest"),
     (BINANCE_FUTURES, vs "open_interest"),
     (BINANCE_DELIVERY, vs "open_interest"),
     (BYBIT, vs "instrument_info.100ms")]),
   (LIQUIDATIONS,
    [(BITMEX, vs "liquidation"),
     (BINANCE_FUTURES, vs "forceOrder"),
     (BINANCE_DELIVERY, vs "forceOrder"),
     (FTX, vs "trades"),
     (DERIBIT, vs "trades"),
     (OKEX, vs LIQUIDATIONS)]),
   (FUTURES_INDEX,
    [(BYBIT, vs "instrument_info.100ms")])]

/-! ### The static option table -/

/-- `_exchange_options`: standardized order option → (exchange → native
option value). -/
def exchange_options : List (String × List (String × PyVal)) :=
  [(LIMIT,
    [(KRAKEN, vs "limit"),
     (GEMINI, vs "exchange limit"),
     (POLONIEX, vs "limit"),
     (COINBASE, vs "limit"),
     (BLOCKCHAIN, vs "limit")]),
   (MARKET,
    [(KRAKEN, vs "market"),
     (GEMINI, vs UNSUPPORTED),
     (POLONIEX, vs UNSUPPORTED),
     (COINBASE, vs "market"),
     (BLOCKCHAIN, vs "market")]),
   (FILL_OR_KILL,
    [(GEMINI, vs "fill-or-kill"),
     (POLONIEX, vs "fillOrKill"),
     (COINBASE, .dict [("time_in_force", .str "FOK")]),
     (KRAKEN, vs UNSUPPORTED),
     (BLOCKCHAIN, vs "FOK")]),
   (IMMEDIATE_OR_CANCEL,
    [(GEMINI, vs "immediate-or-cancel"),
     (POLONIEX, vs "immediateOrCancel"),
     (COINBASE, .dict [("time_in_force", .str "IOC")]),
     (KRAKEN, vs UNSUPPORTED),
     (BLOCKCHAIN, vs "IOC")]),
   (MAKER_OR_CANCEL,
    [(GEMINI, vs "maker-or-cancel"),
     (POLONIEX, vs "postOnly"),
     (COINBASE, .dict [("post_only", .int 1)]),
     (KRAKEN, vs "post")])]

/-- `normalize_trading_options(exchange, option)`. -/
def normalize_trading_options (exchange opt : String) : Except CFError PyVal :=
  match lookupA opt exchange_options with
  | none => .error .UnsupportedTradingOption
  | some sub =>
    match lookupA exchange sub with
    | none => .error .UnsupportedTradingOption
    | some ret =>
      if ret = vs UNSUPPORTED then .error .UnsupportedTradingOption else .ok ret

/-- The nested `raise_error` of `feed_to_exchange`: the raised exception
paired with the log messages emitted (it logs unless `silent`). -/
def raise_error (exchange feed : String) (silent : Bool) :
    Except CFError PyVal × List String :=
  (.error .UnsupportedDataFeed,
   if silent then []
   else ["Error: " ++ feed ++ " is not currently supported on " ++ exchange])

/-- `feed_to_exchange(exchange, feed, silent)`.  The result is the value
returned or the exception raised, paired with the list of log messages
emitted. -/
def feed_to_exchange (r : Registry) (exchange feed : String) (silent : Bool) :
    Except CFError PyVal × List String :=
  if exchange = POLONIEX ∧ lookupA feed feed_to_exchange_map = none then
    match pair_std_to_exchange r feed POLONIEX with
    | .ok v => (.ok (vs v), [])
    | .error e => (.error e, [])
  else
    match lookupA feed feed_to_exchange_map with
    | none => raise_error exchange feed silent
    | some sub =>
      match lookupA exchange sub with
      | none => raise_error exchange feed silent
      | some ret =>
        if ret = vs UNSUPPORTED then raise_error exchange feed silent
        else (.ok ret, [])

/-- The two-level lookup of the static channel table. -/
def channelLookup (feed exchange : String) : Option PyVal :=
  match lookupA feed feed_to_exchange_map with
  | some sub => lookupA exchange sub
  | none => none

/-- The two-level lookup of the static option table. -/
def optionLookup (opt exchange : String) : Option PyVal :=
  match lookupA opt exchange_options with
  | some sub => lookupA exchange sub
  | none => none

/-! ### Association-list lemmas -/

theorem mapPointwise {α : Type} {f : α → α} {l : List α}
    (h : ∀ a ∈ l, f a = a) : l.map f = l := by
  induction l with
  | nil => rfl
  | cons a l ih =>
    simp only [List.map_cons]
    rw [h a (List.mem_cons_self a l), ih fun b hb => h b (List.mem_cons_of_mem a hb)]

theorem mapCongr {α β : Type} {f g : α → β} {l : List α}
    (h : ∀ a ∈ l, f a = g a) : l.map f = l.map g := by
  induction l with
  | nil => rfl
  | cons a l ih =>
    simp only [List.map_cons]
    rw [h a (List.mem_cons_self a l), ih fun b hb => h b (List.mem_cons_of_mem a hb)]

theorem lookupA_append {β : Type} (k : String) :
    ∀ (l1 l2 : List (String × β)),
      lookupA k (l1 ++ l2) =
        (match lookupA k l1 with
         | some v => some v
         | none => lookupA k l2)
  | [], _ => rfl
  | p :: l1, l2 => by
    by_cases h : p.1 = k <;> simp [lookupA, h, lookupA_append k l1 l2]

theorem lookupA_eq_none {β : Type} (k : String) :
    ∀ {l : List (String × β)}, lookupA k l = none ↔ ∀ p ∈ l, p.1 ≠ k := by
  intro l
  induction l with
  | nil => simp [lookupA]
  | cons p l ih =>
    by_cases h : p.1 = k <;> simp [lookupA, h, ih]

theorem lookupA_map_keyfix {β : Type} (k k2 : String) (v : β) (l : List (String × β)) :
    lookupA k (l.map fun p => if p.1 = k2 then (k2, v) else p) =
      (match lookupA k l with
       | some w => if k = k2 then some v else some w
       | none => none) := by
  induction l with
  | nil => rfl
  | cons p l ih =>
    simp only [List.map_cons]
    by_cases h : p.1 = k2
    · rw [if_pos h]
      by_cases h2 : k = k2
      · subst h2
        simp [lookupA, h]
      · have hpk : ¬ p.1 = k := by
          rw [h]
          exact fun hk => h2 hk.symm
        have hk2k : ¬ k2 = k := fun hk => h2 hk.symm
        simp only [lookupA, if_neg hpk, if_neg hk2k, ih]
    · rw [if_neg h]
      by_cases h2 : p.1 = k
      · have hkk2 : ¬ k = k2 := by
          rw [← h2]
          exact h
        simp only [lookupA, if_pos h2, if_neg hkk2]
      · simp only [lookupA, if_neg h2, ih]

theorem insertA_isSome {β : Type} {k : String} {l : List (String × β)} (v : β)
    (h : (lookupA k l).isSome) :
    insertA k v l = l.map fun p => if p.1 = k then (k, v) else p := by
  unfold insertA
  rw [if_pos h]

theorem insertA_none {β : Type} {k : String} {l : List (String × β)} (v : β)
    (h : lookupA k l = none) : insertA k v l = l ++ [(k, v)] := by
  unfold insertA
  rw [if_neg (by simp [h])]

theorem lookupA_insertA_self {β : Type} (k : String) (v : β) (l : List (String × β)) :
    lookupA k (insertA k v l) = some v := by
  unfold insertA
  by_cases h : (lookupA k l).isSome
  · rw [if_pos h, lookupA_map_keyfix]
    rcases Option.isSome_iff_exists.mp h with ⟨w, hw⟩
    simp [hw]
  · rw [if_neg h, lookupA_append]
    have : lookupA k l = none := Option.not_isSome_iff_eq_none.mp h
    simp [this, lookupA]

theorem lookupA_insertA_ne {β : Type} {k k2 : String} (h : k ≠ k2) (v : β)
    (l : List (String × β)) : lookupA k (insertA k2 v l) = lookupA k l := by
  unfold insertA
  by_cases hs : (lookupA k2 l).isSome
  · rw [if_pos hs, lookupA_map_keyfix]
    cases hl : lookupA k l <;> simp [h]
  · rw [if_neg hs, lookupA_append]
    cases hl : lookupA k l <;> simp [lookupA, Ne.symm h]

theorem mem_insertA {β : Type} {q : String × β} {k : String} {v : β}
    {l : List (String × β)} (h : q ∈ insertA k v l) :
    q = (k, v) ∨ (q ∈ l ∧ q.1 ≠ k) := by
  unfold insertA at h
  by_cases hs : (lookupA k l).isSome
  · rw [if_pos hs, List.mem_map] at h
    rcases h with ⟨p, hp, hq⟩
    by_cases hk : p.1 = k
    · rw [if_pos hk] at hq
      exact Or.inl hq.symm
    · rw [if_neg hk] at hq
      exact Or.inr ⟨hq ▸ hp, hq ▸ hk⟩
  · rw [if_neg hs, List.mem_append] at h
    rcases h with h | h
    · have : lookupA k l = none := Option.not_isSome_iff_eq_none.mp hs
      exact Or.inr ⟨h, (lookupA_eq_none k).mp this q h⟩
    · simp only [List.mem_singleton] at h
      exact Or.inl h

theorem insertA_absorb {β : Type} (k : String) (v w : β) (l : List (String × β)) :
    insertA k v (insertA k w l) = insertA k v l := by
  have hw : (lookupA k (insertA k w l)).isSome := by
    rw [lookupA_insertA_self]
    rfl
  rw [insertA_isSome v hw]
  by_cases hs : (lookupA k l).isSome
  · rw [insertA_isSome w hs, insertA_isSome v hs, List.map_map]
    apply mapCongr
    intro p _
    by_cases hk : p.1 = k <;> simp [Function.comp, hk]
  · have hnone : lookupA k l = none := Option.not_isSome_iff_eq_none.mp hs
    have hkeys := (lookupA_eq_none k).mp hnone
    rw [insertA_none w hnone, insertA_none v hnone, List.map_append]
    have hid : l.map (fun p => if p.1 = k then (k, v) else p) = l := by
      apply mapPointwise
      intro p hp
      rw [if_neg (hkeys p hp)]
    rw [hid]
    simp

theorem lookupA_of_mem_nodup {β : Type} {l : List (String × β)}
    (hnd : (l.map Prod.fst).Nodup) {p : String × β} (hp : p ∈ l) :
    lookupA p.1 l = some p.2 := by
  induction l with
  | nil => cases hp
  | cons q l ih =>
    simp only [List.map_cons, List.nodup_cons] at hnd
    rcases List.mem_cons.mp hp with h | h
    · subst h
      simp [lookupA]
    · have hne : q.1 ≠ p.1 := by
        intro he
        exact hnd.1 (he ▸ List.mem_map_of_mem Prod.fst h)
      simp only [lookupA, if_neg hne]
      exact ih hnd.2 h

theorem insertA_self {β : Type} {k : String} {v : β} {l : List (String × β)}
    (hnd : (l.map Prod.fst).Nodup) (hv : lookupA k l = some v) :
    insertA k v l = l := by
  unfold insertA
  rw [if_pos (by simp [hv])]
  apply mapPointwise
  intro p hp
  by_cases hk : p.1 = k
  · rw [if_pos hk]
    have := lookupA_of_mem_nodup hnd hp
    rw [hk, hv] at this
    rw [← hk, Option.some_inj.mp this]
  · rw [if_neg hk]

/-! ### The backward map as a fold -/

/-- The standard symbol of the last provider pair whose native symbol is
`k` — the value `_exchange_to_std[k]` ends up with. -/
def lastWrite : List (String × String) → String → Option String
  | [], _ => none
  | p :: m, k =>
    match lastWrite m k with
    | some v => some v
    | none => if p.2 = k then some p.1 else none

theorem lookupA_foldl_bwd (k : String) :
    ∀ (m : List (String × String)) (b : List (String × String)),
      lookupA k (m.foldl bwdStep b) =
        (match lastWrite m k with
         | some v => some v
         | none => lookupA k b)
  | [], b => rfl
  | p :: m, b => by
    simp only [List.foldl_cons, lastWrite]
    rw [lookupA_foldl_bwd k m]
    by_cases h : p.2 = k
    · subst h
      cases hl : lastWrite m p.2 <;>
        simp [bwdStep, lookupA_insertA_self]
    · cases hl : lastWrite m k <;>
        simp [bwdStep, lookupA_insertA_ne (fun he => h he.symm), h]

theorem lastWrite_isSome_of_mem {m : List (String × String)} {p : String × String}
    (hp : p ∈ m) : (lastWrite m p.2).isSome := by
  induction m with
  | nil => cases hp
  | cons q m ih =>
    simp only [lastWrite]
    rcases List.mem_cons.mp hp with h | h
    · subst h
      cases hl : lastWrite m p.2 <;> simp
    · cases hl : lastWrite m p.2 <;> simp_all

theorem lastWrite_val {m : List (String × String)} {x s : String}
    (hval : ∀ p ∈ m, p.2 = x → p.1 = s) :
    ∀ v, lastWrite m x = some v → v = s := by
  induction m with
  | nil => intro v hv; cases hv
  | cons q m ih =>
    intro v hv
    simp only [lastWrite] at hv
    cases hl : lastWrite m x with
    | some w =>
      rw [hl] at hv
      have hv2 : some w = some v := hv
      exact ih (fun p hp => hval p (List.mem_cons_of_mem q hp)) v (by rw [hl, hv2])
    | none =>
      rw [hl] at hv
      by_cases h : q.2 = x
      · rw [if_pos h] at hv
        rw [← Option.some_inj.mp hv]
        exact hval q (List.mem_cons_self q m) h
      · rw [if_neg h] at hv
        cases hv

theorem lastWrite_unique {m : List (String × String)} {s x : String}
    (hmem : (s, x) ∈ m) (hval : ∀ p ∈ m, p.2 = x → p.1 = s) :
    lastWrite m x = some s := by
  have h1 : (lastWrite m x).isSome := lastWrite_isSome_of_mem hmem
  rcases Option.isSome_iff_exists.mp h1 with ⟨v, hv⟩
  rw [hv, lastWrite_val hval v hv]

/-! ### The forward map as a fold -/

theorem fwdStep_eq_some {e : String} {f : List (String × List (String × String))}
    {p : String × String} {sub : List (String × String)}
    (hl : lookupA p.1 f = some sub) :
    fwdStep e f p = insertA p.1 (insertA e p.2 sub) f := by
  unfold fwdStep
  rw [hl]

theorem fwdStep_eq_none {e : String} {f : List (String × List (String × String))}
    {p : String × String} (hl : lookupA p.1 f = none) :
    fwdStep e f p = f ++ [(p.1, [(e, p.2)])] := by
  unfold fwdStep
  rw [hl]

theorem lookupA_fwdStep (e : String) (f : List (String × List (String × String)))
    (p : String × String) (s : String) :
    lookupA s (fwdStep e f p) =
      (if p.1 = s then some (insertA e p.2 ((lookupA s f).getD [])) else lookupA s f) := by
  unfold fwdStep
  cases hl : lookupA p.1 f with
  | some sub =>
    by_cases h : p.1 = s
    · subst h
      rw [if_pos rfl, lookupA_insertA_self, hl]
      rfl
    · rw [if_neg h, lookupA_insertA_ne (fun he => h he.symm)]
  | none =>
    by_cases h : p.1 = s
    · subst h
      rw [if_pos rfl, lookupA_append, hl]
      simp [lookupA, insertA]
    · rw [if_neg h, lookupA_append]
      cases hf : lookupA s f <;> simp [lookupA, h]

theorem lookupA_foldl_fwd (e : String) (s : String) :
    ∀ (m : List (String × String)) (f : List (String × List (String × String))),
      lookupA s (m.foldl (fwdStep e) f) =
        m.foldl
          (fun acc p => if p.1 = s then some (insertA e p.2 (acc.getD [])) else acc)
          (lookupA s f)
  | [], _ => rfl
  | p :: m, f => by
    simp only [List.foldl_cons]
    rw [lookupA_foldl_fwd e s m, lookupA_fwdStep]

theorem foldl_acc_no_write {e s : String} {m : List (String × String)}
    (h : ∀ p ∈ m, p.1 ≠ s) (a : Option (List (String × String))) :
    m.foldl (fun acc p => if p.1 = s then some (insertA e p.2 (acc.getD [])) else acc) a
      = a := by
  induction m generalizing a with
  | nil => rfl
  | cons q m ih =>
    simp only [List.foldl_cons, if_neg (h q (List.mem_cons_self q m))]
    exact ih (fun p hp => h p (List.mem_cons_of_mem q hp)) a

theorem lookupA_foldl_fwd_unique (e : String) {m : List (String × String)}
    (f : List (String × List (String × String))) {s x : String}
    (hmem : (s, x) ∈ m) (hnd : (m.map Prod.fst).Nodup) :
    lookupA s (m.foldl (fwdStep e) f) =
      some (insertA e x ((lookupA s f).getD [])) := by
  rcases List.append_of_mem hmem with ⟨m1, m2, rfl⟩
  rw [List.map_append, List.map_cons, List.nodup_append] at hnd
  obtain ⟨hA, hB, hC⟩ := hnd
  rw [List.nodup_cons] at hB
  have h1 : ∀ p ∈ m1, p.1 ≠ s := by
    intro p hp he
    exact hC (List.mem_map_of_mem Prod.fst hp)
      (by rw [he]; exact List.mem_cons_self _ _)
  have h2 : ∀ p ∈ m2, p.1 ≠ s := by
    intro p hp he
    exact hB.1 (List.mem_map.mpr ⟨p, hp, he⟩)
  rw [lookupA_foldl_fwd, List.foldl_append, List.foldl_cons,
    foldl_acc_no_write h1, if_pos rfl, foldl_acc_no_write h2]

/-! ### The warm-up loop splits into the two independent folds -/

theorem foldl_warmStep_proj (e : String) :
    ∀ (m : List (String × String)) (r : Registry),
      m.foldl (warmStep e) r =
        ⟨m.foldl (fwdStep e) r.std_trading_pairs, m.foldl bwdStep r.exchange_to_std⟩
  | [], _ => rfl
  | p :: m, r => by
    simp only [List.foldl_cons]
    rw [foldl_warmStep_proj e m]
    rfl

/-! ### Idempotence of the backward fold -/

/-- Replace every value of `c` by the last value `m` writes to its key. -/
def mapLast (m : List (String × String)) (c : List (String × String)) :
    List (String × String) :=
  c.map fun q => (q.1, (lastWrite m q.1).getD q.2)

theorem isSome_lookupA_foldl_bwd_of_mem {m : List (String × String)}
    (b : List (String × String)) {p : String × String} (hp : p ∈ m) :
    (lookupA p.2 (m.foldl bwdStep b)).isSome := by
  rw [lookupA_foldl_bwd]
  rcases Option.isSome_iff_exists.mp (lastWrite_isSome_of_mem hp) with ⟨v, hv⟩
  rw [hv]
  rfl

theorem foldl_bwd_saturated :
    ∀ (m c : List (String × String)), (∀ p ∈ m, (lookupA p.2 c).isSome) →
      m.foldl bwdStep c = mapLast m c
  | [], c, _ => by
    simp [mapLast, lastWrite]
  | q :: m, c, hsat => by
    have hq : (lookupA q.2 c).isSome := hsat q (List.mem_cons_self q m)
    simp only [List.foldl_cons]
    have hstep : bwdStep c q = c.map fun p => if p.1 = q.2 then (q.2, q.1) else p :=
      insertA_isSome q.1 hq
    rw [hstep]
    have hsat2 : ∀ p ∈ m,
        (lookupA p.2 (c.map fun r => if r.1 = q.2 then (q.2, q.1) else r)).isSome := by
      intro p hp
      rw [lookupA_map_keyfix]
      rcases Option.isSome_iff_exists.mp (hsat p (List.mem_cons_of_mem q hp)) with ⟨w, hw⟩
      rw [hw]
      by_cases h : p.2 = q.2 <;> simp [h]
    rw [foldl_bwd_saturated m _ hsat2]
    unfold mapLast
    rw [List.map_map]
    apply mapCongr
    intro r _
    simp only [Function.comp_apply]
    by_cases h : r.1 = q.2
    · rw [if_pos h, h]
      cases hl : lastWrite m q.2 with
      | some v => simp [lastWrite, hl]
      | none => simp [lastWrite, hl]
    · rw [if_neg h]
      have hlw : lastWrite (q :: m) r.1 = lastWrite m r.1 := by
        have hne : ¬ q.2 = r.1 := fun he => h he.symm
        cases hl : lastWrite m r.1 <;> simp [lastWrite, hl, hne]
      rw [hlw]

theorem lastWrite_append_single (m : List (String × String)) (p : String × String)
    (k : String) :
    lastWrite (m ++ [p]) k = if p.2 = k then some p.1 else lastWrite m k := by
  induction m with
  | nil => simp [lastWrite]
  | cons q m ih =>
    simp only [List.cons_append, lastWrite, List.append_eq]
    rw [ih]
    by_cases h : p.2 = k
    · simp [h]
    · simp [h]

theorem foldl_bwd_entries {m : List (String × String)} :
    ∀ {b : List (String × String)} {q : String × String},
      q ∈ m.foldl bwdStep b → ∀ v, lastWrite m q.1 = some v → q.2 = v := by
  induction m using List.reverseRecOn with
  | nil =>
    intro b q _ v hv
    cases hv
  | append_singleton m p ih =>
    intro b q hq v hv
    rw [List.foldl_append, List.foldl_cons, List.foldl_nil] at hq
    rw [lastWrite_append_single] at hv
    rcases mem_insertA hq with h | ⟨hmem, hne⟩
    · subst h
      rw [if_pos rfl] at hv
      exact Option.some_inj.mp hv
    · rw [if_neg (fun he => hne he.symm)] at hv
      exact ih hmem v hv

theorem mapLast_fixed {m c : List (String × String)}
    (h : ∀ q ∈ c, ∀ v, lastWrite m q.1 = some v → q.2 = v) : mapLast m c = c := by
  apply mapPointwise
  intro q hq
  cases hl : lastWrite m q.1 with
  | some v =>
    rw [Option.getD_some, ← h q hq v hl]
  | none =>
    rw [Option.getD_none]

theorem foldl_bwd_idem (m b : List (String × String)) :
    m.foldl bwdStep (m.foldl bwdStep b) = m.foldl bwdStep b := by
  rw [foldl_bwd_saturated m (m.foldl bwdStep b)
    (fun p hp => isSome_lookupA_foldl_bwd_of_mem b hp)]
  exact mapLast_fixed fun q hq v hv => foldl_bwd_entries hq v hv

/-! ### Idempotence of the forward fold -/

theorem fwdStep_keys_nodup (e : String) {f : List (String × List (String × String))}
    (p : String × String) (h : (f.map Prod.fst).Nodup) :
    ((fwdStep e f p).map Prod.fst).Nodup := by
  cases hl : lookupA p.1 f with
  | some sub =>
    rw [fwdStep_eq_some hl, insertA_isSome _ (by simp [hl]), List.map_map]
    have hkeys : f.map (Prod.fst ∘ fun q =>
        if q.1 = p.1 then (p.1, insertA e p.2 sub) else q) = f.map Prod.fst := by
      apply mapCongr
      intro q _
      by_cases hq : q.1 = p.1 <;> simp [Function.comp, hq]
    rw [hkeys]
    exact h
  | none =>
    rw [fwdStep_eq_none hl, List.map_append, List.nodup_append]
    refine ⟨h, by simp, ?_⟩
    intro a ha hb
    simp only [List.map_cons, List.map_nil, List.mem_singleton] at hb
    rcases List.mem_map.mp ha with ⟨q, hq, hqa⟩
    exact (lookupA_eq_none p.1).mp hl q hq (hqa.trans hb)

theorem foldl_fwd_keys_nodup (e : String) :
    ∀ (m : List (String × String)) {f : List (String × List (String × String))},
      (f.map Prod.fst).Nodup → ((m.foldl (fwdStep e) f).map Prod.fst).Nodup
  | [], _, h => h
  | p :: m, f, h => by
    simp only [List.foldl_cons]
    exact foldl_fwd_keys_nodup e m (fwdStep_keys_nodup e p h)

theorem foldl_fwd_fixed {e : String} :
    ∀ (msub : List (String × String)) (c : List (String × List (String × String))),
      (c.map Prod.fst).Nodup →
      (∀ p ∈ msub, ∃ sub, lookupA p.1 c = some sub ∧ insertA e p.2 sub = sub) →
      msub.foldl (fwdStep e) c = c
  | [], _, _, _ => rfl
  | p :: msub, c, hnd, hfix => by
    obtain ⟨sub, hsub, habs⟩ := hfix p (List.mem_cons_self p msub)
    have hstep : fwdStep e c p = c := by
      rw [fwdStep_eq_some hsub, habs, insertA_self hnd hsub]
    simp only [List.foldl_cons, hstep]
    exact foldl_fwd_fixed msub c hnd
      (fun q hq => hfix q (List.mem_cons_of_mem p hq))

theorem foldl_fwd_idem (e : String) (m : List (String × String))
    (f : List (String × List (String × String)))
    (hm : (m.map Prod.fst).Nodup) (hf : (f.map Prod.fst).Nodup) :
    m.foldl (fwdStep e) (m.foldl (fwdStep e) f) = m.foldl (fwdStep e) f := by
  apply foldl_fwd_fixed m _ (foldl_fwd_keys_nodup e m hf)
  intro p hp
  have hp2 : (p.1, p.2) ∈ m := by
    rw [Prod.mk.eta]
    exact hp
  refine ⟨insertA e p.2 ((lookupA p.1 f).getD []), ?_, insertA_absorb _ _ _ _⟩
  exact lookupA_foldl_fwd_unique e f hp2 hm

/-! ### Claim theorems -/

/-- C7: calling `load_exchange_pair_mapping(e)` a second time with the same
Pair Provider output leaves both `_std_trading_pairs` and
`_exchange_to_std` unchanged relative to their state after the first call.
(The provider output and the forward map are Python dicts, so their keys
are distinct.) -/
theorem C7_load_exchange_pair_mapping_idempotent (exchange : String)
    (m : List (String × String)) (r : Registry)
    (hm : (m.map Prod.fst).Nodup)
    (hf : (r.std_trading_pairs.map Prod.fst).Nodup) :
    load_exchange_pair_mapping exchange m (load_exchange_pair_mapping exchange m r) =
      load_exchange_pair_mapping exchange m r := by
  unfold load_exchange_pair_mapping
  by_cases he : exchange ∈ exemptExchanges
  · rw [if_pos he, if_pos he]
  · rw [if_neg he, if_neg he]
    rw [foldl_warmStep_proj exchange m r, foldl_warmStep_proj]
    exact congrArg₂ Registry.mk
      (foldl_fwd_idem exchange m r.std_trading_pairs hm hf)
      (foldl_bwd_idem m r.exchange_to_std)

/-- Witness for C7 at a concrete exchange, provider output and initial
registry. -/
theorem C7_witness :
    (([("A", "X"), ("B", "X")] : List (String × String)).map Prod.fst).Nodup ∧
    load_exchange_pair_mapping BINANCE [("A", "X"), ("B", "X")]
        (load_exchange_pair_mapping BINANCE [("A", "X"), ("B", "X")] emptyRegistry) =
      load_exchange_pair_mapping BINANCE [("A", "X"), ("B", "X")] emptyRegistry :=
  ⟨by decide,
   C7_load_exchange_pair_mapping_idempotent BINANCE [("A", "X"), ("B", "X")]
     emptyRegistry (by decide) (by decide)⟩

/-- C1 counterexample: when the Pair Provider returns two standard symbols
mapped to the same native symbol, the round-trip fails for the earlier
pair — after warming, `pair_exchange_to_std "X"` is the later standard
symbol `"B"`, not `"A"`. -/
theorem C1_counterexample :
    BINANCE ∉ exemptExchanges ∧
    ("A", "X") ∈ ([("A", "X"), ("B", "X")] : List (String × String)) ∧
    pair_exchange_to_std
        (load_exchange_pair_mapping BINANCE [("A", "X"), ("B", "X")] emptyRegistry) "X" =
      .ok (some "B") ∧
    (Except.ok (some "B") : Except CFError (Option String)) ≠ .ok (some "A") := by
  decide

/-- C1 (amended): for a non-exempt exchange `e` and a pair `(s, native)`
returned by the Pair Provider, provided `native` appears under no other
standard symbol in the provider's mapping (whose keys, being a mapping's,
are distinct), immediately after `load_exchange_pair_mapping(e)` the
round-trip holds from any prior registry state:
`pair_exchange_to_std(native) = s` and `pair_std_to_exchange(s, e) =
native`. -/
theorem C1_round_trip (r : Registry) (exchange : String)
    (m : List (String × String)) (s x : String)
    (hex : exchange ∉ exemptExchanges)
    (hmem : (s, x) ∈ m)
    (hkeys : (m.map Prod.fst).Nodup)
    (huniq : ∀ p ∈ m, p.2 = x → p.1 = s) :
    pair_exchange_to_std (load_exchange_pair_mapping exchange m r) x = .ok (some s) ∧
    pair_std_to_exchange (load_exchange_pair_mapping exchange m r) s exchange = .ok x := by
  have hload : load_exchange_pair_mapping exchange m r =
      ⟨m.foldl (fwdStep exchange) r.std_trading_pairs,
       m.foldl bwdStep r.exchange_to_std⟩ := by
    unfold load_exchange_pair_mapping
    rw [if_neg hex, foldl_warmStep_proj]
  constructor
  · have hb : lookupA x (load_exchange_pair_mapping exchange m r).exchange_to_std
        = some s := by
      rw [hload]
      show lookupA x (m.foldl bwdStep r.exchange_to_std) = some s
      rw [lookupA_foldl_bwd, lastWrite_unique hmem huniq]
    unfold pair_exchange_to_std
    simp only [hb]
  · have hfwd : lookupA s (load_exchange_pair_mapping exchange m r).std_trading_pairs
        = some (insertA exchange x ((lookupA s r.std_trading_pairs).getD [])) := by
      rw [hload]
      show lookupA s (m.foldl (fwdStep exchange) r.std_trading_pairs) = _
      exact lookupA_foldl_fwd_unique exchange r.std_trading_pairs hmem hkeys
    unfold pair_std_to_exchange
    rw [if_neg hex]
    simp only [hfwd, lookupA_insertA_self]

/-- Witness for C1 (amended) at a concrete provider mapping. -/
theorem C1_witness :
    pair_exchange_to_std
        (load_exchange_pair_mapping BINANCE [("BTC-USD", "XBTUSD")] emptyRegistry)
        "XBTUSD" = .ok (some "BTC-USD") ∧
    pair_std_to_exchange
        (load_exchange_pair_mapping BINANCE [("BTC-USD", "XBTUSD")] emptyRegistry)
        "BTC-USD" BINANCE = .ok "XBTUSD" :=
  C1_round_trip emptyRegistry BINANCE [("BTC-USD", "XBTUSD")] "BTC-USD" "XBTUSD"
    (by decide) (by decide) (by decide) (by decide)

/-- C2: `pair_std_to_exchange(standard, exchange)` returns `standard`
unchanged for every input when `exchange` is exempt (BITMEX, DERIBIT,
KRAKEN_FUTURES); otherwise, if `standard` is a key of the forward map it
returns the per-exchange entry or fails with `UnsupportedTradingPair` when
that exchange has no entry; if `standard` is not a key at all it returns
`"f" ++ standard` exactly when `exchange` is BITFINEX and `standard`
contains no `"-"`, and fails with `UnsupportedTradingPair` in every other
case. -/
theorem C2_pair_std_to_exchange_cases (r : Registry) (pair exchange : String) :
    (exchange ∈ exemptExchanges → pair_std_to_exchange r pair exchange = .ok pair) ∧
    (exchange ∉ exemptExchanges →
      ∀ sub, lookupA pair r.std_trading_pairs = some sub →
        ((∀ v, lookupA exchange sub = some v →
            pair_std_to_exchange r pair exchange = .ok v) ∧
         (lookupA exchange sub = none →
            pair_std_to_exchange r pair exchange = .error .UnsupportedTradingPair))) ∧
    (exchange ∉ exemptExchanges → lookupA pair r.std_trading_pairs = none →
      ((pair_std_to_exchange r pair exchange = .ok ("f" ++ pair) ↔
          exchange = BITFINEX ∧ ¬ '-' ∈ pair.toList) ∧
       (¬ (exchange = BITFINEX ∧ ¬ '-' ∈ pair.toList) →
          pair_std_to_exchange r pair exchange = .error .UnsupportedTradingPair))) := by
  refine ⟨?_, ?_, ?_⟩
  · intro he
    unfold pair_std_to_exchange
    rw [if_pos he]
  · intro he sub hsub
    constructor
    · intro v hv
      unfold pair_std_to_exchange
      rw [if_neg he]
      simp only [hsub, hv]
    · intro hv
      unfold pair_std_to_exchange
      rw [if_neg he]
      simp only [hsub, hv]
  · intro he hnone
    have hrw : pair_std_to_exchange r pair exchange =
        (if exchange = BITFINEX ∧ ¬ '-' ∈ pair.toList then Except.ok ("f" ++ pair)
         else Except.error CFError.UnsupportedTradingPair) := by
      unfold pair_std_to_exchange
      rw [if_neg he]
      simp only [hnone]
    constructor
    · constructor
      · intro hok
        by_contra hc
        rw [hrw, if_neg hc] at hok
        cases hok
      · intro hc
        rw [hrw, if_pos hc]
    · intro hc
      rw [hrw, if_neg hc]

/-- Witness for C2 exercising the exempt branch, the known-key branch, and
the Bitfinex funding-prefix branch. -/
theorem C2_witness :
    pair_std_to_exchange emptyRegistry "BTC-USD" BITMEX = .ok "BTC-USD" ∧
    pair_std_to_exchange (Registry.mk [("BTC-USD", [(COINBASE, "BTCUSD")])] [])
        "BTC-USD" COINBASE = .ok "BTCUSD" ∧
    pair_std_to_exchange emptyRegistry "BTC" BITFINEX = .ok ("f" ++ "BTC") :=
  ⟨(C2_pair_std_to_exchange_cases emptyRegistry "BTC-USD" BITMEX).1 (by decide),
   ((C2_pair_std_to_exchange_cases (Registry.mk [("BTC-USD", [(COINBASE, "BTCUSD")])] [])
       "BTC-USD" COINBASE).2.1 (by decide) [(COINBASE, "BTCUSD")] (by decide)).1
     "BTCUSD" (by decide),
   ((C2_pair_std_to_exchange_cases emptyRegistry "BTC" BITFINEX).2.2 (by decide)
       (by decide)).1.mpr (by decide)⟩

theorem feed_to_exchange_nonpoloniex (r : Registry) (exchange feed : String)
    (silent : Bool) (hx : exchange ≠ POLONIEX) :
    (feed_to_exchange r exchange feed silent).1 =
      (match channelLookup feed exchange with
       | none => .error .UnsupportedDataFeed
       | some ret =>
         if ret = vs UNSUPPORTED then .error .UnsupportedDataFeed else .ok ret) := by
  unfold feed_to_exchange channelLookup
  rw [if_neg (fun h => hx h.1)]
  cases h1 : lookupA feed feed_to_exchange_map with
  | none => simp [h1, raise_error]
  | some sub =>
    simp only [h1]
    cases h2 : lookupA exchange sub with
    | none => simp [h2, raise_error]
    | some ret =>
      simp only [h2]
      by_cases h3 : ret = vs UNSUPPORTED <;> simp [h3, raise_error]

/-- C3: for non-POLONIEX exchanges, `feed_to_exchange(exchange, feed)`
returns the static table value exactly when the `(feed, exchange)` entry is
present and not the UNSUPPORTED sentinel, and raises `UnsupportedDataFeed`
when the value equals UNSUPPORTED or the pair is absent; in particular
`feed_to_exchange(COINBASE, TRADES) = "matches"`. -/
theorem C3_feed_to_exchange_table (r : Registry) (silent : Bool) :
    (∀ exchange feed, exchange ≠ POLONIEX →
      ((∀ v, (feed_to_exchange r exchange feed silent).1 = .ok v ↔
          channelLookup feed exchange = some v ∧ v ≠ vs UNSUPPORTED) ∧
       ((feed_to_exchange r exchange feed silent).1 = .error .UnsupportedDataFeed ↔
          channelLookup feed exchange = none ∨
            channelLookup feed exchange = some (vs UNSUPPORTED)))) ∧
    (feed_to_exchange r COINBASE TRADES silent).1 = .ok (vs "matches") := by
  have hmain : ∀ exchange feed, exchange ≠ POLONIEX →
      ((∀ v, (feed_to_exchange r exchange feed silent).1 = .ok v ↔
          channelLookup feed exchange = some v ∧ v ≠ vs UNSUPPORTED) ∧
       ((feed_to_exchange r exchange feed silent).1 = .error .UnsupportedDataFeed ↔
          channelLookup feed exchange = none ∨
            channelLookup feed exchange = some (vs UNSUPPORTED))) := by
    intro exchange feed hx
    have heq := feed_to_exchange_nonpoloniex r exchange feed silent hx
    cases hc : channelLookup feed exchange with
    | none =>
      have hres : (feed_to_exchange r exchange feed silent).1 =
          .error .UnsupportedDataFeed := by
        rw [heq, hc]
      constructor
      · intro v
        rw [hres]
        simp
      · rw [hres]
        simp
    | some ret =>
      by_cases h3 : ret = vs UNSUPPORTED
      · subst h3
        have hres : (feed_to_exchange r exchange feed silent).1 =
            .error .UnsupportedDataFeed := by
          rw [heq, hc]
          simp
        constructor
        · intro v
          rw [hres]
          constructor
          · intro hok
            exact absurd hok (by simp)
          · rintro ⟨hv, hne⟩
            exact absurd (Option.some_inj.mp hv).symm hne
        · rw [hres]
          constructor
          · intro
            exact Or.inr rfl
          · intro
            rfl
      · have hres : (feed_to_exchange r exchange feed silent).1 = .ok ret := by
          rw [heq, hc]
          simp [h3]
        constructor
        · intro v
          rw [hres]
          constructor
          · intro hok
            injection hok with hv
            exact ⟨by rw [hv], hv ▸ h3⟩
          · rintro ⟨hv, _⟩
            rw [Option.some_inj.mp hv]
        · rw [hres]
          constructor
          · intro hok
            exact absurd hok (by simp)
          · rintro (hc2 | hc2)
            · exact Option.noConfusion hc2
            · exact absurd (Option.some_inj.mp hc2) h3
  refine ⟨hmain, ?_⟩
  exact ((hmain COINBASE TRADES (by decide)).1 (vs "matches")).mpr (by decide)

/-- Witness for C3 at concrete table entries: a valid entry and an
explicitly UNSUPPORTED entry. -/
theorem C3_witness :
    (feed_to_exchange emptyRegistry COINBASE TRADES false).1 = .ok (vs "matches") ∧
    (feed_to_exchange emptyRegistry BITSTAMP TICKER false).1 =
      .error .UnsupportedDataFeed :=
  ⟨(C3_feed_to_exchange_table emptyRegistry false).2,
   ((C3_feed_to_exchange_table emptyRegistry false).1 BITSTAMP TICKER
       (by decide)).2.mpr (Or.inr (by decide))⟩

/-- C4 counterexample: on the empty string, `pair_exchange_to_std` raises
IndexError rather than returning null, so the no-error guarantee fails. -/
theorem C4_counterexample :
    pair_exchange_to_std emptyRegistry "" = .error .IndexError ∧
    pair_exchange_to_std emptyRegistry "" ≠ .ok none := by
  decide

/-- C4 (amended): for every nonempty `native`, `pair_exchange_to_std`
returns the backward-map entry when `native` is a known key; when unknown
it returns `native` with the leading marker removed if its first character
is `"f"` (so `pair_exchange_to_std "fBTC" = "BTC"`), and otherwise returns
null; on nonempty input it never fails with an error.  (On the empty
string it raises IndexError.) -/
theorem C4_pair_exchange_to_std (r : Registry) (pair : String) (hne : pair ≠ "") :
    (∀ s, lookupA pair r.exchange_to_std = some s →
        pair_exchange_to_std r pair = .ok (some s)) ∧
    (lookupA pair r.exchange_to_std = none → pair.take 1 = "f" →
        pair_exchange_to_std r pair = .ok (some (pair.drop 1))) ∧
    (lookupA pair r.exchange_to_std = none → pair.take 1 ≠ "f" →
        pair_exchange_to_std r pair = .ok none) ∧
    (∀ e, pair_exchange_to_std r pair ≠ .error e) ∧
    pair_exchange_to_std emptyRegistry "fBTC" = .ok (some "BTC") := by
  refine ⟨?_, ?_, ?_, ?_, by decide⟩
  · intro s hs
    unfold pair_exchange_to_std
    simp only [hs]
  · intro hs ht
    unfold pair_exchange_to_std
    simp only [hs, if_neg hne, if_pos ht]
  · intro hs ht
    unfold pair_exchange_to_std
    simp only [hs, if_neg hne, if_neg ht]
  · intro e
    unfold pair_exchange_to_std
    cases hs : lookupA pair r.exchange_to_std with
    | some s => simp
    | none =>
      rw [if_neg hne]
      by_cases ht : pair.take 1 = "f" <;> simp [ht]

/-- Witness for C4 (amended) on the funding-prefix case, the unknown case,
and the known-key case. -/
theorem C4_witness :
    pair_exchange_to_std emptyRegistry "fBTC" = .ok (some "BTC") ∧
    pair_exchange_to_std emptyRegistry "XBTUSD" = .ok none ∧
    pair_exchange_to_std (Registry.mk [] [("XBTUSD", "BTC-USD")]) "XBTUSD" =
      .ok (some "BTC-USD") :=
  ⟨(C4_pair_exchange_to_std emptyRegistry "fBTC" (by decide)).2.2.2.2,
   (C4_pair_exchange_to_std emptyRegistry "XBTUSD" (by decide)).2.2.1
     (by decide) (by decide),
   (C4_pair_exchange_to_std (Registry.mk [] [("XBTUSD", "BTC-USD")]) "XBTUSD"
       (by decide)).1 "BTC-USD" (by decide)⟩

/-- C5 counterexample: `futures_index` is a key of the channel table with
no POLONIEX entry (so it is not a recognized channel name for POLONIEX),
yet `feed_to_exchange(POLONIEX, futures_index)` raises
`UnsupportedDataFeed` instead of delegating to `pair_std_to_exchange`
(which would raise `UnsupportedTradingPair` here). -/
theorem C5_counterexample :
    lookupA POLONIEX ((lookupA FUTURES_INDEX feed_to_exchange_map).getD []) = none ∧
    (feed_to_exchange emptyRegistry POLONIEX FUTURES_INDEX false).1 =
      .error .UnsupportedDataFeed ∧
    pair_std_to_exchange emptyRegistry FUTURES_INDEX POLONIEX =
      .error .UnsupportedTradingPair ∧
    (Except.error CFError.UnsupportedDataFeed : Except CFError PyVal) ≠
      Except.map vs (Except.error CFError.UnsupportedTradingPair :
        Except CFError String) := by
  decide

/-- C5 (amended): for POLONIEX, whenever the requested channel is not a
key of the channel table at all, `feed_to_exchange` reinterprets the
channel argument as a standard symbol and returns the result of delegating
it to `pair_std_to_exchange(feed, POLONIEX)`. -/
theorem C5_poloniex_delegation (r : Registry) (feed : String) (silent : Bool)
    (h : lookupA feed feed_to_exchange_map = none) :
    (feed_to_exchange r POLONIEX feed silent).1 =
      Except.map vs (pair_std_to_exchange r feed POLONIEX) := by
  unfold feed_to_exchange
  rw [if_pos ⟨rfl, h⟩]
  cases hp : pair_std_to_exchange r feed POLONIEX <;> simp [Except.map]

/-- Witness for C5 (amended) at a channel argument that is not a channel
table key. -/
theorem C5_witness :
    (feed_to_exchange emptyRegistry POLONIEX "BTC_ETH" false).1 =
      Except.map vs (pair_std_to_exchange emptyRegistry "BTC_ETH" POLONIEX) :=
  C5_poloniex_delegation emptyRegistry "BTC_ETH" false (by decide)

theorem normalize_trading_options_eq_table (exchange opt : String) :
    normalize_trading_options exchange opt =
      (match optionLookup opt exchange with
       | none => .error .UnsupportedTradingOption
       | some ret =>
         if ret = vs UNSUPPORTED then .error .UnsupportedTradingOption
         else .ok ret) := by
  unfold normalize_trading_options optionLookup
  cases h1 : lookupA opt exchange_options with
  | none => simp [h1]
  | some sub => simp only [h1]

theorem optionLookup_eq_none (opt exchange : String) :
    optionLookup opt exchange = none ↔
      lookupA opt exchange_options = none ∨
        (∃ sub, lookupA opt exchange_options = some sub ∧
          lookupA exchange sub = none) := by
  unfold optionLookup
  cases h1 : lookupA opt exchange_options with
  | none => simp [h1]
  | some sub => simp [h1]

/-- C6: `normalize_trading_options(exchange, option)` raises
`UnsupportedTradingOption` in exactly three cases — the option is not a key
of the option table, the exchange has no entry under that option, or the
looked-up value equals the UNSUPPORTED sentinel — and otherwise returns the
table value unchanged; in particular
`normalize_trading_options("KRAKEN", "limit") = "limit"` and
`normalize_trading_options("GEMINI", "market")` fails. -/
theorem C6_normalize_trading_options_cases (exchange opt : String) :
    (normalize_trading_options exchange opt = .error .UnsupportedTradingOption ↔
      (lookupA opt exchange_options = none ∨
        (∃ sub, lookupA opt exchange_options = some sub ∧
          lookupA exchange sub = none)) ∨
      optionLookup opt exchange = some (vs UNSUPPORTED)) ∧
    (∀ v, normalize_trading_options exchange opt = .ok v ↔
      optionLookup opt exchange = some v ∧ v ≠ vs UNSUPPORTED) ∧
    (∀ e, normalize_trading_options exchange opt = .error e →
      e = .UnsupportedTradingOption) ∧
    normalize_trading_options "KRAKEN" "limit" = .ok (vs "limit") ∧
    normalize_trading_options "GEMINI" "market" = .error .UnsupportedTradingOption := by
  refine ⟨?_, ?_, ?_, by decide, by decide⟩
  · rw [normalize_trading_options_eq_table, ← optionLookup_eq_none]
    cases hc : optionLookup opt exchange with
    | none => simp [hc]
    | some ret =>
      by_cases h3 : ret = vs UNSUPPORTED
      · subst h3
        simp [hc]
      · simp [hc, h3]
  · rw [normalize_trading_options_eq_table]
    cases hc : optionLookup opt exchange with
    | none => simp [hc]
    | some ret =>
      by_cases h3 : ret = vs UNSUPPORTED
      · subst h3
        simp only [hc, if_pos rfl]
        intro v
        constructor
        · intro hok
          exact absurd hok (by simp)
        · rintro ⟨hv, hne⟩
          exact absurd (Option.some_inj.mp hv).symm hne
      · simp only [hc, if_neg h3]
        intro v
        constructor
        · intro hok
          injection hok with hv
          exact ⟨by rw [hv], hv ▸ h3⟩
        · rintro ⟨hv, _⟩
          rw [Option.some_inj.mp hv]
  · rw [normalize_trading_options_eq_table]
    cases hc : optionLookup opt exchange with
    | none =>
      simp only [hc]
      intro e he
      injection he with h
      exact h.symm
    | some ret =>
      by_cases h3 : ret = vs UNSUPPORTED
      · simp only [hc, if_pos h3]
        intro e he
        injection he with h
        exact h.symm
      · simp only [hc, if_neg h3]
        intro e he
        exact absurd he (by simp)

/-- Witness for C6 exercising both iff characterizations. -/
theorem C6_witness :
    normalize_trading_options "KRAKEN" "limit" = .ok (vs "limit") ∧
    normalize_trading_options "GEMINI" "market" =
      .error .UnsupportedTradingOption :=
  ⟨((C6_normalize_trading_options_cases "KRAKEN" "limit").2.1 (vs "limit")).mpr
     (by decide),
   ((C6_normalize_trading_options_cases "GEMINI" "market").1).mpr
     (Or.inr (by decide))⟩

/-- C8: `timestamp_normalize(exchange, ts)` returns `ts / 1000` for every
exchange of the milliseconds class (e.g.
`timestamp_normalize(BINANCE, 1600000000000) = 1600000000`),
`ts / 1000000` for the microseconds class (BITSTAMP), and `ts` unchanged
for every exchange not listed in any class. -/
theorem C8_timestamp_normalize_classes (parse : ℚ → ℚ) (exchange : String) (ts : ℚ) :
    (exchange ∈ ms_timestamp_class →
      timestamp_normalize parse exchange ts = ts / 1000) ∧
    (exchange ∈ us_timestamp_class →
      timestamp_normalize parse exchange ts = ts / 1000000) ∧
    (exchange ∉ pd_timestamp_class → exchange ∉ ms_timestamp_class →
      exchange ∉ us_timestamp_class → timestamp_normalize parse exchange ts = ts) ∧
    timestamp_normalize parse BINANCE 1600000000000 = 1600000000 := by
  have hdisj1 : ∀ x ∈ ms_timestamp_class, x ∉ pd_timestamp_class := by decide
  have hdisj2 : ∀ x ∈ us_timestamp_class, x ∉ pd_timestamp_class := by decide
  have hdisj3 : ∀ x ∈ us_timestamp_class, x ∉ ms_timestamp_class := by decide
  refine ⟨?_, ?_, ?_, ?_⟩
  · intro h
    unfold timestamp_normalize
    rw [if_neg (hdisj1 exchange h), if_pos h]
  · intro h
    unfold timestamp_normalize
    rw [if_neg (hdisj2 exchange h), if_neg (hdisj3 exchange h), if_pos h]
  · intro h1 h2 h3
    unfold timestamp_normalize
    rw [if_neg h1, if_neg h2, if_neg h3]
  · unfold timestamp_normalize
    rw [if_neg (by decide), if_pos (by decide)]
    norm_num

/-- Witness for C8 on the milliseconds class and the pass-through class. -/
theorem C8_witness :
    timestamp_normalize id BINANCE 1600000000000 = 1600000000000 / 1000 ∧
    timestamp_normalize id "KUCOIN" 5 = 5 :=
  ⟨(C8_timestamp_normalize_classes id BINANCE 1600000000000).1 (by decide),
   (C8_timestamp_normalize_classes id "KUCOIN" 5).2.2.1
     (by decide) (by decide) (by decide)⟩

/-- C9: the outcome of `feed_to_exchange(exchange, feed, silent)` — the
value returned or the exception raised — is identical for `silent = true`
and `silent = false`; the flag affects only logging. -/
theorem C9_silent_does_not_change_result (r : Registry) (exchange feed : String) :
    (feed_to_exchange r exchange feed true).1 =
      (feed_to_exchange r exchange feed false).1 := by
  unfold feed_to_exchange
  by_cases h : exchange = POLONIEX ∧ lookupA feed feed_to_exchange_map = none
  · rw [if_pos h, if_pos h]
  · rw [if_neg h, if_neg h]
    cases h1 : lookupA feed feed_to_exchange_map with
    | none => simp [h1, raise_error]
    | some sub =>
      simp only [h1]
      cases h2 : lookupA exchange sub with
      | none => simp [h2, raise_error]
      | some ret =>
        simp only [h2]
        by_cases h3 : ret = vs UNSUPPORTED <;> simp [h3, raise_error]

/-- C10: `pair_exchange_to_std` applied to the empty string (not a key of
the backward map) raises IndexError — the out-of-range access `pair[0]` —
instead of returning null, so the no-error guarantee for unrecognized
native symbols does not hold at the empty input. -/
theorem C10_empty_pair_raises (r : Registry)
    (h : lookupA "" r.exchange_to_std = none) :
    pair_exchange_to_std r "" = .error .IndexError ∧
    pair_exchange_to_std r "" ≠ .ok none := by
  have hval : pair_exchange_to_std r "" = .error .IndexError := by
    unfold pair_exchange_to_std
    simp [h]
  exact ⟨hval, by rw [hval]; intro hc; cases hc⟩

/-- Witness for C10 at the empty registry. -/
theorem C10_witness :
    pair_exchange_to_std emptyRegistry "" = .error .IndexError ∧
    pair_exchange_to_std emptyRegistry "" ≠ .ok none :=
  C10_empty_pair_raises emptyRegistry (by decide)

end Cryptofeed
